import Mathlib

/-!
# NFTMarket event listener (`event-listener.js`)

A shallow embedding of the class `NFTMarketEventListener`: the listening flag,
the listener registries of `this.contract` and `this.provider`, the console,
and the three methods `startListening`, `stopListening` and
`getHistoricalEvents`.

The ethers objects (version 6: `ethers.JsonRpcProvider`, `ethers.formatEther`,
`event.log`) are the environment.  Their method `on` is `async`, and the code
calls it without `await`: the call hands back a promise, and the callback is
stored in the registry (or the promise rejected) only when that promise
settles, after the calling method has returned.  The state therefore carries
the registrations still pending, and `settle` is the turn of the event loop in
which they complete.  `removeAllListeners()` empties a registry as it is at
the time of the call.  What the node answers (whether a registration is
accepted, what a range query returns) is given by a `LogSource` value.
-/

namespace NFTMarket

/-! ## Data model -/

/-- A JavaScript value thrown by the ethers objects or by the engine. -/
structure JsError where
  message : String
deriving DecidableEq, Repr

/-- How a call ends: it returns a value or it throws.  For the `async` methods
`returned v` is the promise fulfilled with `v` and `threw e` the promise
rejected with `e`. -/
inductive Completion (α : Type) where
  | returned (value : α)
  | threw (error : JsError)
deriving DecidableEq, Repr

/-- One call on the console: `console.log(line)` or `console.error(label, cause)`. -/
inductive Console where
  | log (line : String)
  | error (label : String) (cause : JsError)
deriving DecidableEq, Repr

/-- The callbacks that can sit in a registry: the three arrow functions of
`startListening` (lines 34, 46 and 59) and callbacks of other code. -/
inductive Handler where
  | onListed
  | onBought
  | onProviderError
  | foreign (id : Nat)
deriving DecidableEq, Repr

/-- The two event emitters the listener owns. -/
inductive Emitter where
  | contract
  | provider
deriving DecidableEq, Repr

/-- An entry of a registry: a callback registered under an event name. -/
structure Subscription where
  event : String
  handler : Handler
deriving DecidableEq, Repr

/-- A call of `on` whose promise has not settled yet. -/
structure Registration where
  target : Emitter
  event : String
  handler : Handler
deriving DecidableEq, Repr

/-- The second and third argument of `queryFilter`: a block number or `'latest'`. -/
inductive BlockTag where
  | number (n : Nat)
  | latest
deriving DecidableEq, Repr

/-- An `NFTListed` log as the code reads it: `args.tokenId`, `args.seller`,
`args.price`, `blockNumber`, `transactionHash`. -/
structure ListedLog where
  tokenId : Nat
  seller : String
  price : Nat
  blockNumber : Nat
  transactionHash : String
deriving DecidableEq, Repr

/-- An `NFTBought` log as the code reads it. -/
structure BoughtLog where
  tokenId : Nat
  buyer : String
  seller : String
  price : Nat
  blockNumber : Nat
  transactionHash : String
deriving DecidableEq, Repr

/-- An element of the array `queryFilter` answers with: a log that ethers
decoded against the ABI, which carries `args`, or a log it could not decode,
which has `blockNumber` and `transactionHash` but no `args`. -/
inductive Fetched (α : Type) where
  | decoded (log : α)
  | undecoded (blockNumber : Nat) (transactionHash : String)
deriving DecidableEq, Repr

/-- The requests the listener sends to the ethers objects. -/
inductive SourceOp where
  | on (target : Emitter) (event : String) (handler : Handler)
  | removeAllListeners (target : Emitter)
  | queryFilter (event : String) (fromBlock toBlock : BlockTag)
deriving DecidableEq, Repr

/-- The instance state: `this.isListening`, the registries of `this.contract`
and `this.provider`, and the `on` calls of this instance whose promises are
still pending. -/
structure Listener where
  isListening : Bool
  contractListeners : List Subscription
  providerListeners : List Subscription
  pending : List Registration
deriving DecidableEq, Repr

/-- The node behind the ethers objects: `onFault target event` is the error
with which the promise of `on(event, _)` is rejected on that emitter (`none`:
the registration is accepted); `queryListed` and `queryBought` answer the two
`queryFilter` calls. -/
structure LogSource where
  onFault : Emitter → String → Option JsError
  queryListed : BlockTag → BlockTag → Completion (List (Fetched ListedLog))
  queryBought : BlockTag → BlockTag → Completion (List (Fetched BoughtLog))

/-- What a method call leaves behind: the instance state, the console calls
and the requests it made, in order, and how it ended. -/
structure Run (α : Type) where
  listener : Listener
  console : List Console
  ops : List SourceOp
  outcome : Completion α

/-- The constant `CONTRACT_ADDRESS` (line 5). -/
def CONTRACT_ADDRESS : String := "0x9fE46736679d2D9a65F0992F2272dE9f3c7fa6e0"

/-- The constructor (lines 14-18): a new provider and contract object, no
listener on either, nothing pending, `isListening = false`. -/
def Listener.fresh : Listener :=
  { isListening := false, contractListeners := [], providerListeners := [], pending := [] }

/-- The registry of an emitter. -/
def Listener.registry (s : Listener) : Emitter → List Subscription
  | .contract => s.contractListeners
  | .provider => s.providerListeners

/-- Number of callbacks registered under `event` (ethers: `listenerCount(event)`). -/
def listenerCount (subs : List Subscription) (event : String) : Nat :=
  (subs.filter (fun sub => sub.event == event)).length

/-- The string method `c.repeat(n)` for a one-character string. -/
def repeatChar (c : Char) (n : Nat) : String :=
  String.mk (List.replicate n c)

/-! ## Registration and teardown -/

/-- The call `target.on(event, handler)` as lines 34, 46 and 59 make it,
without `await`: the `async` method hands back a promise and the call never
throws; the registration is pending until the promise settles. -/
def emitterOn (s : Listener) (target : Emitter) (event : String) (handler : Handler) :
    Listener :=
  { s with pending := s.pending ++ [⟨target, event, handler⟩] }

/-- The call `target.removeAllListeners()` (lines 73-74): empties the registry
of `target` as it is now; registrations still pending are not in it. -/
def emitterRemoveAll (s : Listener) : Emitter → Listener
  | .contract => { s with contractListeners := [] }
  | .provider => { s with providerListeners := [] }

/-- The method `startListening` (lines 21-64). -/
def startListening (s : Listener) : Run Unit :=
  if s.isListening then
    { listener := s
      console := [.log "事件监听器已经在运行中..."]
      ops := []
      outcome := .returned () }
  else
    let s1 : Listener := { s with isListening := true }
    let s2 := emitterOn s1 .contract "NFTListed" .onListed
    let s3 := emitterOn s2 .contract "NFTBought" .onBought
    let s4 := emitterOn s3 .provider "error" .onProviderError
    { listener := s4
      console :=
        [ .log "🚀 开始监听NFTMarket合约事件...",
          .log ("合约地址: " ++ CONTRACT_ADDRESS),
          .log (repeatChar '=' 50),
          .log "✅ 事件监听器已启动，等待事件..." ]
      ops :=
        [ .on .contract "NFTListed" .onListed,
          .on .contract "NFTBought" .onBought,
          .on .provider "error" .onProviderError ]
      outcome := .returned () }

/-- The method `stopListening` (lines 67-77). -/
def stopListening (s : Listener) : Run Unit :=
  if !s.isListening then
    { listener := s
      console := [.log "事件监听器未在运行"]
      ops := []
      outcome := .returned () }
  else
    let s1 := emitterRemoveAll s .contract
    let s2 := emitterRemoveAll s1 .provider
    let s3 : Listener := { s2 with isListening := false }
    { listener := s3
      console := [.log "🛑 事件监听器已停止"]
      ops := [.removeAllListeners .contract, .removeAllListeners .provider]
      outcome := .returned () }

/-! ## The event loop -/

/-- What a turn of the event loop leaves behind: the instance state, and the
errors of the rejected `on` promises.  No code awaits or catches these
promises, so the rejections reach no caller. -/
structure Settled where
  listener : Listener
  rejections : List JsError
deriving DecidableEq, Repr

/-- An accepted registration: the callback goes to the end of the registry. -/
def Listener.store (s : Listener) (r : Registration) : Listener :=
  match r.target with
  | .contract => { s with contractListeners := s.contractListeners ++ [⟨r.event, r.handler⟩] }
  | .provider => { s with providerListeners := s.providerListeners ++ [⟨r.event, r.handler⟩] }

/-- One pending `on` promise settles: fulfilled, and the callback is stored,
or rejected with the error of the source. -/
def settleOne (src : LogSource) (acc : Settled) (r : Registration) : Settled :=
  match src.onFault r.target r.event with
  | some e => { listener := acc.listener, rejections := acc.rejections ++ [e] }
  | none => { listener := acc.listener.store r, rejections := acc.rejections }

/-- A turn of the event loop: the pending `on` promises settle, in the order
of the calls. -/
def settle (src : LogSource) (s : Listener) : Settled :=
  s.pending.foldl (settleOne src) { listener := { s with pending := [] }, rejections := [] }

/-! ## Runs of lifecycle calls -/

/-- What happens to a listener: a lifecycle call, or a turn of the event loop
between two calls (with the behaviour of the source during it). -/
inductive Step where
  | start
  | stop
  | settle (src : LogSource)

/-- One step on a state. -/
def Step.run : Step → Listener → Listener
  | .start, s => (startListening s).listener
  | .stop, s => (stopListening s).listener
  | .settle src, s => (NFTMarket.settle src s).listener

/-- A sequence of steps; calls with no `settle` between them are consecutive
statements. -/
def runSteps : List Step → Listener → Listener
  | [], s => s
  | step :: steps, s => runSteps steps (step.run s)

/-- The state Listening: the flag set, the three callbacks of
`startListening` registered, each once, and nothing else; nothing pending. -/
def Listener.listening : Listener :=
  { isListening := true
    contractListeners := [⟨"NFTListed", .onListed⟩, ⟨"NFTBought", .onBought⟩]
    providerListeners := [⟨"error", .onProviderError⟩]
    pending := [] }

/-- A source that accepts every registration and has no logs. -/
def quietSource : LogSource :=
  { onFault := fun _ _ => none
    queryListed := fun _ _ => .returned []
    queryBought := fun _ _ => .returned [] }

/-- A source that refuses the `NFTListed` registration (and accepts the others). -/
def refusingSource : LogSource :=
  { onFault := fun target event =>
      if target = .contract ∧ event = "NFTListed" then some ⟨"could not connect"⟩ else none
    queryListed := fun _ _ => .returned []
    queryBought := fun _ _ => .returned [] }

/-! ## Amounts -/

/-- The `width` low decimal digits of `r`, most significant first. -/
def fixedDigits : Nat → Nat → List Char
  | 0, _ => []
  | width + 1, r => fixedDigits width (r / 10) ++ [Nat.digitChar (r % 10)]

/-- Drops the zeros at the end of a digit string, keeping one digit at least. -/
def trimFraction (ds : List Char) : List Char :=
  match (ds.reverse.dropWhile (fun c => c == '0')).reverse with
  | [] => ['0']
  | c :: cs => c :: cs

/-- Modelled from the spec: `ethers.formatEther` belongs to the ethers library,
which is not among the sources.  The spec calls its result the amount
"human-scaled (divided by 10^18)"; it is rendered here as the decimal numeral
of that quotient: the whole part `wei / 10^18`, a point, and the eighteen
digits of `wei % 10^18` without the zeros at the end (one digit is kept). -/
def formatEther (wei : Nat) : String :=
  toString (wei / 10 ^ 18) ++ "." ++ String.mk (trimFraction (fixedDigits 18 (wei % 10 ^ 18)))

/-- The value of a decimal digit. -/
def digitValue (c : Char) : Option Nat :=
  if c.isDigit then some (c.toNat - '0'.toNat) else none

/-- The number a string of decimal digits denotes, read from the left on top
of `acc`. -/
def digitsValueFrom : Nat → List Char → Option Nat
  | acc, [] => some acc
  | acc, c :: cs =>
    match digitValue c with
    | none => none
    | some d => digitsValueFrom (acc * 10 + d) cs

/-- The number a string of decimal digits denotes. -/
def digitsValue (cs : List Char) : Option Nat :=
  digitsValueFrom 0 cs

/-- The rational number a decimal numeral `whole.fraction` denotes. -/
def decimalValue (s : String) : Option ℚ :=
  let whole := s.data.takeWhile (fun c => c != '.')
  match s.data.dropWhile (fun c => c != '.') with
  | [] => none
  | _ :: frac =>
    if whole.isEmpty || frac.isEmpty then none
    else
      match digitsValue whole, digitsValue frac with
      | some w, some f => some ((w : ℚ) + (f : ℚ) / (10 : ℚ) ^ frac.length)
      | _, _ => none

/-! ## Live deliveries -/

/-- What the `NFTListed` callback prints (lines 35-42); `now` is the reading of
`new Date().toLocaleString()`. -/
def listedLines (log : ListedLog) (now : String) : List Console :=
  [ .log "📋 NFT上架事件:",
    .log ("  Token ID: " ++ toString log.tokenId),
    .log ("  卖家地址: " ++ log.seller),
    .log ("  价格: " ++ formatEther log.price ++ " ETH"),
    .log ("  交易哈希: " ++ log.transactionHash),
    .log ("  区块号: " ++ toString log.blockNumber),
    .log ("  时间: " ++ now),
    .log (repeatChar '-' 40) ]

/-- What the `NFTBought` callback prints (lines 47-55). -/
def boughtLines (log : BoughtLog) (now : String) : List Console :=
  [ .log "💰 NFT购买事件:",
    .log ("  Token ID: " ++ toString log.tokenId),
    .log ("  买家地址: " ++ log.buyer),
    .log ("  卖家地址: " ++ log.seller),
    .log ("  成交价格: " ++ formatEther log.price ++ " ETH"),
    .log ("  交易哈希: " ++ log.transactionHash),
    .log ("  区块号: " ++ toString log.blockNumber),
    .log ("  时间: " ++ now),
    .log (repeatChar '-' 40) ]

/-- Something the source pushes: a decoded log on one of the two contract
events, or an error on the provider's `'error'` event. -/
inductive Push where
  | listed (log : ListedLog) (now : String)
  | bought (log : BoughtLog) (now : String)
  | providerError (error : JsError)
deriving DecidableEq, Repr

/-- The emitter a push arrives on. -/
def Push.emitter : Push → Emitter
  | .listed _ _ => .contract
  | .bought _ _ => .contract
  | .providerError _ => .provider

/-- The event name a push arrives under. -/
def Push.event : Push → String
  | .listed _ _ => "NFTListed"
  | .bought _ _ => "NFTBought"
  | .providerError _ => "error"

/-- What running callbacks leaves behind: the instance state, the console
calls, and the errors thrown out of the callbacks. -/
structure Delivery where
  listener : Listener
  console : List Console
  raised : List JsError
deriving DecidableEq, Repr

/-- One callback on one push.  The three callbacks of `startListening` only
print; `foreign` stands for all other code: callbacks registered elsewhere,
and a callback called with the arguments of another event. -/
def runHandler (foreign : Handler → Push → Listener → Delivery) :
    Handler → Push → Listener → Delivery
  | .onListed, .listed log now, s =>
    { listener := s, console := listedLines log now, raised := [] }
  | .onBought, .bought log now, s =>
    { listener := s, console := boughtLines log now, raised := [] }
  | .onProviderError, .providerError e, s =>
    { listener := s, console := [.error "❌ 提供者错误:" e], raised := [] }
  | h, p, s => foreign h p s

/-- Runs, in registration order, the callbacks of `subs` registered under the
event of the push. -/
def dispatch (foreign : Handler → Push → Listener → Delivery) (p : Push) :
    List Subscription → Delivery → Delivery
  | [], d => d
  | sub :: subs, d =>
    if sub.event == p.event then
      let r := runHandler foreign sub.handler p d.listener
      dispatch foreign p subs
        { listener := r.listener
          console := d.console ++ r.console
          raised := d.raised ++ r.raised }
    else
      dispatch foreign p subs d

/-- The source pushes `p`: the callbacks registered for it at that moment run. -/
def deliver (foreign : Handler → Push → Listener → Delivery) (s : Listener) (p : Push) :
    Delivery :=
  dispatch foreign p (s.registry p.emitter) { listener := s, console := [], raised := [] }

/-- The source pushes a sequence, one push after the other. -/
def deliverAll (foreign : Handler → Push → Listener → Delivery) :
    Listener → List Push → Delivery
  | s, [] => { listener := s, console := [], raised := [] }
  | s, p :: ps =>
    let d := deliver foreign s p
    let rest := deliverAll foreign d.listener ps
    { listener := rest.listener
      console := d.console ++ rest.console
      raised := d.raised ++ rest.raised }

/-- Other code that does nothing: the stand-in for callbacks that are not the
listener's in the examples. -/
def silentForeign : Handler → Push → Listener → Delivery :=
  fun _ _ s => { listener := s, console := [], raised := [] }

/-! ## Historical events -/

/-- What `getHistoricalEvents` hands to its caller. -/
inductive Returned where
  | undefined
  | events (listed : List ListedLog) (bought : List BoughtLog)
deriving DecidableEq, Repr

/-- What a loop leaves behind: the console calls it made, and the error that
ended it, if any. -/
structure Printed where
  console : List Console
  thrown : Option JsError
deriving DecidableEq, Repr

/-- The array method `xs.forEach((x, index) => ...)` from index `i` on: the
callback runs on each element in turn, and an error it throws ends the loop
and leaves it. -/
def forEachFrom {α : Type} (f : α → Nat → Completion (List Console)) :
    List α → Nat → Printed
  | [], _ => { console := [], thrown := none }
  | x :: xs, i =>
    match f x i with
    | .threw e => { console := [], thrown := some e }
    | .returned lines =>
      let rest := forEachFrom f xs (i + 1)
      { console := lines ++ rest.console, thrown := rest.thrown }

/-- The array method `xs.forEach((x, index) => ...)`. -/
def forEach {α : Type} (xs : List α) (f : α → Nat → Completion (List Console)) : Printed :=
  forEachFrom f xs 0

/-- The `TypeError` of the engine for `const { tokenId, ... } = event.args`
(lines 103 and 115) when `event.args` is `undefined`. -/
def argsTypeError : JsError :=
  ⟨"TypeError: Cannot destructure property tokenId of event.args as it is undefined."⟩

/-- What the callback of `listedEvents.forEach` prints for a decoded log
(lines 104-110). -/
def listedRecord (event : ListedLog) (index : Nat) : List Console :=
  [ .log ("📋 历史上架事件 #" ++ toString (index + 1) ++ ":"),
    .log ("  Token ID: " ++ toString event.tokenId),
    .log ("  卖家: " ++ event.seller),
    .log ("  价格: " ++ formatEther event.price ++ " ETH"),
    .log ("  区块: " ++ toString event.blockNumber),
    .log ("  交易哈希: " ++ event.transactionHash),
    .log (repeatChar '-' 30) ]

/-- What the callback of `boughtEvents.forEach` prints for a decoded log
(lines 116-123). -/
def boughtRecord (event : BoughtLog) (index : Nat) : List Console :=
  [ .log ("💰 历史购买事件 #" ++ toString (index + 1) ++ ":"),
    .log ("  Token ID: " ++ toString event.tokenId),
    .log ("  买家: " ++ event.buyer),
    .log ("  卖家: " ++ event.seller),
    .log ("  价格: " ++ formatEther event.price ++ " ETH"),
    .log ("  区块: " ++ toString event.blockNumber),
    .log ("  交易哈希: " ++ event.transactionHash),
    .log (repeatChar '-' 30) ]

/-- The callback of `listedEvents.forEach` (lines 102-111): line 103
destructures `event.args`, which throws for a log without `args`, before
anything is printed for it. -/
def listedCallback : Fetched ListedLog → Nat → Completion (List Console)
  | .decoded event, index => .returned (listedRecord event index)
  | .undecoded _ _, _ => .threw argsTypeError

/-- The callback of `boughtEvents.forEach` (lines 114-124). -/
def boughtCallback : Fetched BoughtLog → Nat → Completion (List Console)
  | .decoded event, index => .returned (boughtRecord event index)
  | .undecoded _ _, _ => .threw argsTypeError

/-- What the `try` block leaves behind (lines 83-124): the console calls and
the requests it made, and the error it threw, if any. -/
structure TryBlock where
  console : List Console
  ops : List SourceOp
  thrown : Option JsError

/-- The `try` block of `getHistoricalEvents` (lines 84-124). -/
def historicalTry (src : LogSource) (fromBlock toBlock : BlockTag) : TryBlock :=
  let q1 := SourceOp.queryFilter "NFTListed" fromBlock toBlock
  let q2 := SourceOp.queryFilter "NFTBought" fromBlock toBlock
  match src.queryListed fromBlock toBlock with
  | .threw e => { console := [], ops := [q1], thrown := some e }
  | .returned listedEvents =>
    match src.queryBought fromBlock toBlock with
    | .threw e => { console := [], ops := [q1, q2], thrown := some e }
    | .returned boughtEvents =>
      let counts : List Console :=
        [ .log ("找到 " ++ toString listedEvents.length ++ " 个上架事件"),
          .log ("找到 " ++ toString boughtEvents.length ++ " 个购买事件") ]
      let listed := forEach listedEvents listedCallback
      match listed.thrown with
      | some e => { console := counts ++ listed.console, ops := [q1, q2], thrown := some e }
      | none =>
        let bought := forEach boughtEvents boughtCallback
        { console := counts ++ listed.console ++ bought.console
          ops := [q1, q2]
          thrown := bought.thrown }

/-- The method `getHistoricalEvents` (lines 80-129); the defaults of the
parameters are `fromBlock = 0` and `toBlock = 'latest'`. -/
def getHistoricalEvents (src : LogSource) (s : Listener) (fromBlock toBlock : BlockTag) :
    Run Returned :=
  let banner := Console.log "📚 获取历史事件..."
  let body := historicalTry src fromBlock toBlock
  match body.thrown with
  | none =>
    { listener := s
      console := banner :: body.console
      ops := body.ops
      outcome := .returned .undefined }
  | some error =>
    { listener := s
      console := banner :: body.console ++ [.error "❌ 获取历史事件失败:" error]
      ops := body.ops
      outcome := .returned .undefined }

/-- Two `NFTListed` logs, in block and log-index order. -/
def sampleListed : List ListedLog :=
  [ { tokenId := 7, seller := "0xA1", price := 1500000000000000000, blockNumber := 12,
      transactionHash := "0x01" },
    { tokenId := 9, seller := "0xB2", price := 1, blockNumber := 40,
      transactionHash := "0x02" } ]

/-- Three `NFTBought` logs, in block and log-index order. -/
def sampleBought : List BoughtLog :=
  [ { tokenId := 7, buyer := "0xC3", seller := "0xA1", price := 1500000000000000000,
      blockNumber := 20, transactionHash := "0x03" },
    { tokenId := 9, buyer := "0xD4", seller := "0xB2", price := 1, blockNumber := 41,
      transactionHash := "0x04" },
    { tokenId := 7, buyer := "0xE5", seller := "0xC3", price := 2000000000000000000,
      blockNumber := 99, transactionHash := "0x05" } ]

/-- A source with two `NFTListed` and three `NFTBought` logs, all decoded. -/
def sampleSource : LogSource :=
  { onFault := fun _ _ => none
    queryListed := fun _ _ => .returned (sampleListed.map .decoded)
    queryBought := fun _ _ => .returned (sampleBought.map .decoded) }

/-- A source whose second `NFTListed` log does not decode. -/
def undecodedSource : LogSource :=
  { onFault := fun _ _ => none
    queryListed := fun _ _ =>
      .returned [.decoded ⟨7, "0xA1", 1500000000000000000, 12, "0x01"⟩, .undecoded 40 "0x02"]
    queryBought := fun _ _ => .returned (sampleBought.map .decoded) }

/-- A source whose `NFTListed` query fails while its `NFTBought` query answers. -/
def listedQueryDownSource : LogSource :=
  { onFault := fun _ _ => none
    queryListed := fun _ _ => .threw ⟨"node error"⟩
    queryBought := fun _ _ => .returned (sampleBought.map .decoded) }

/-- A source whose `NFTBought` query fails after its `NFTListed` query answered. -/
def boughtQueryDownSource : LogSource :=
  { onFault := fun _ _ => none
    queryListed := fun _ _ => .returned (sampleListed.map .decoded)
    queryBought := fun _ _ => .threw ⟨"node error"⟩ }

/-- A console call that delivers event data: a count line or a line of a
record, that is, any `console.log` other than the opening banner. -/
def Console.isEventData : Console → Bool
  | .log line => line != "📚 获取历史事件..."
  | .error _ _ => false

/-- A console call that goes to the event Sink (`console.log`), as opposed to
the error report (`console.error`). -/
def Console.isSink : Console → Bool
  | .log _ => true
  | .error _ _ => false

/-- The callbacks and pending registrations on the provider are the error
callback of `startListening`. -/
def Listener.ownOnProvider (s : Listener) : Prop :=
  (∀ sub ∈ s.providerListeners, sub.handler = .onProviderError) ∧
  (∀ r ∈ s.pending, r.target = .provider → r.handler = .onProviderError)

/-! ## Lifecycle: lemmas -/

theorem startListening_of_listening (s : Listener) (h : s.isListening = true) :
    startListening s =
      { listener := s
        console := [.log "事件监听器已经在运行中..."]
        ops := []
        outcome := .returned () } := by
  simp [startListening, h]

theorem stopListening_of_idle (s : Listener) (h : s.isListening = false) :
    stopListening s =
      { listener := s
        console := [.log "事件监听器未在运行"]
        ops := []
        outcome := .returned () } := by
  simp [stopListening, h]

/-- Neither lifecycle method throws, whatever the state. -/
theorem lifecycle_calls_return (s : Listener) :
    (startListening s).outcome = .returned () ∧ (stopListening s).outcome = .returned () := by
  constructor
  · unfold startListening
    split <;> rfl
  · unfold stopListening
    split <;> rfl

theorem settle_fold_own (src : LogSource) (rs : List Registration) :
    ∀ acc : Settled,
      (∀ sub ∈ acc.listener.providerListeners, sub.handler = .onProviderError) →
      (∀ r ∈ rs, r.target = .provider → r.handler = .onProviderError) →
      acc.listener.pending = [] →
      (∀ sub ∈ (rs.foldl (settleOne src) acc).listener.providerListeners,
        sub.handler = .onProviderError) ∧
      (rs.foldl (settleOne src) acc).listener.pending = [] := by
  induction rs with
  | nil => intro acc h1 _ h3; exact ⟨h1, h3⟩
  | cons r rs ih =>
    intro acc h1 h2 h3
    simp only [List.foldl_cons]
    apply ih
    · intro sub hsub
      unfold settleOne at hsub
      cases hf : src.onFault r.target r.event with
      | some e =>
        simp only [hf] at hsub
        exact h1 sub hsub
      | none =>
        simp only [hf, Listener.store] at hsub
        cases ht : r.target with
        | contract =>
          simp only [ht] at hsub
          exact h1 sub hsub
        | provider =>
          simp only [ht, List.mem_append, List.mem_singleton] at hsub
          rcases hsub with hsub | hsub
          · exact h1 sub hsub
          · subst hsub
            exact h2 r (List.mem_cons_self _ _) ht
    · intro x hx
      exact h2 x (List.mem_cons_of_mem _ hx)
    · unfold settleOne
      cases hf : src.onFault r.target r.event with
      | some e => simpa using h3
      | none =>
        simp only [Listener.store]
        cases r.target <;> simpa using h3

theorem Step.run_own (step : Step) (s : Listener) (h : s.ownOnProvider) :
    (step.run s).ownOnProvider := by
  obtain ⟨h1, h2⟩ := h
  cases step with
  | start =>
    cases hl : s.isListening with
    | true =>
      simp only [Step.run, startListening_of_listening s hl]
      exact ⟨h1, h2⟩
    | false =>
      simp only [Step.run, startListening, hl, Bool.false_eq_true, if_false, emitterOn]
      refine ⟨h1, ?_⟩
      intro r hr ht
      simp only [List.append_assoc, List.mem_append, List.mem_cons, List.mem_singleton,
        List.not_mem_nil, or_false] at hr
      rcases hr with hr | hr | hr | hr
      · exact h2 r hr ht
      · subst hr; cases ht
      · subst hr; cases ht
      · subst hr; rfl
  | stop =>
    cases hl : s.isListening with
    | true =>
      simp only [Step.run, stopListening, hl, Bool.not_true, Bool.false_eq_true, if_false,
        emitterRemoveAll]
      exact ⟨by simp, h2⟩
    | false =>
      simp only [Step.run, stopListening_of_idle s hl]
      exact ⟨h1, h2⟩
  | settle src =>
    have h := settle_fold_own src s.pending
      { listener := { s with pending := [] }, rejections := [] } h1 h2 rfl
    refine ⟨h.1, ?_⟩
    intro r hr
    have hnil : (NFTMarket.settle src s).listener.pending = [] := h.2
    simp only [Step.run, hnil, List.not_mem_nil] at hr

/-- Whatever lifecycle calls and turns of the event loop a fresh listener goes
through, its provider carries only the error callback of `startListening`. -/
theorem runSteps_own (steps : List Step) :
    ∀ s : Listener, s.ownOnProvider → (runSteps steps s).ownOnProvider := by
  induction steps with
  | nil => intro s h; exact h
  | cons step steps ih =>
    intro s h
    exact ih _ (Step.run_own step s h)

theorem fresh_own : Listener.fresh.ownOnProvider :=
  ⟨by simp [Listener.fresh], by simp [Listener.fresh]⟩

/-! ## Lifecycle: the state machine -/

/-- C1 fails on the code.  `start(); stop(); start()` as consecutive statements
on a fresh listener, then the turn of the event loop in which the six pending
registrations are accepted: `isListening` is true and two `NFTListed`, two
`NFTBought` and two provider `'error'` callbacks are registered, not one of
each (`stop()` found the registries still empty).  And when a single `start()`
on the fresh listener returns, `isListening` is true and no callback is
registered yet. -/
theorem restart_registers_callbacks_twice :
    (runSteps [.start, .stop, .start, .settle quietSource] Listener.fresh).isListening = true ∧
      listenerCount
        (runSteps [.start, .stop, .start, .settle quietSource] Listener.fresh).contractListeners
        "NFTListed" = 2 ∧
      listenerCount
        (runSteps [.start, .stop, .start, .settle quietSource] Listener.fresh).contractListeners
        "NFTBought" = 2 ∧
      listenerCount
        (runSteps [.start, .stop, .start, .settle quietSource] Listener.fresh).providerListeners
        "error" = 2 ∧
      (startListening Listener.fresh).listener.isListening = true ∧
      (startListening Listener.fresh).listener.contractListeners = [] ∧
      (startListening Listener.fresh).listener.providerListeners = [] :=
  ⟨rfl, rfl, rfl, rfl, rfl, rfl, rfl⟩

/-- C2: a redundant lifecycle call is a no-op.  In a state with `isListening`
true, `startListening()` returns without error, issues no request, and leaves
the flag, both registries and the pending registrations as they were; in a
state with `isListening` false, `stopListening()` does the same.  So `start()`
followed by `start()`, on a listener without callbacks, issues one
registration per event kind, and once the source has accepted them one
callback per event kind is registered. -/
theorem redundant_calls_are_noops (src : LogSource) (s : Listener) :
    (s.isListening = true →
      (startListening s).outcome = .returned () ∧
      (startListening s).listener = s ∧
      (startListening s).ops = []) ∧
    (s.isListening = false →
      (stopListening s).outcome = .returned () ∧
      (stopListening s).listener = s ∧
      (stopListening s).ops = []) ∧
    (s.isListening = false → s.contractListeners = [] → s.providerListeners = [] →
      s.pending = [] →
      src.onFault .contract "NFTListed" = none → src.onFault .contract "NFTBought" = none →
      src.onFault .provider "error" = none →
      (startListening (startListening s).listener).outcome = .returned () ∧
      (startListening (startListening s).listener).listener.isListening = true ∧
      (startListening (startListening s).listener).listener.pending =
        [ ⟨.contract, "NFTListed", .onListed⟩, ⟨.contract, "NFTBought", .onBought⟩,
          ⟨.provider, "error", .onProviderError⟩ ] ∧
      (settle src (startListening (startListening s).listener).listener).rejections = [] ∧
      (settle src (startListening (startListening s).listener).listener).listener.isListening
        = true ∧
      listenerCount
        (settle src (startListening (startListening s).listener).listener).listener.contractListeners
        "NFTListed" = 1 ∧
      listenerCount
        (settle src (startListening (startListening s).listener).listener).listener.contractListeners
        "NFTBought" = 1 ∧
      listenerCount
        (settle src (startListening (startListening s).listener).listener).listener.providerListeners
        "error" = 1) := by
  refine ⟨fun h => ?_, fun h => ?_, fun h hc hp hq h1 h2 h3 => ?_⟩
  · simp [startListening_of_listening s h]
  · simp [stopListening_of_idle s h]
  · have hs : s = Listener.fresh := by
      cases s
      simp_all [Listener.fresh]
    subst hs
    have hfirst : (startListening Listener.fresh).listener =
        { isListening := true, contractListeners := [], providerListeners := []
          pending :=
            [ ⟨.contract, "NFTListed", .onListed⟩, ⟨.contract, "NFTBought", .onBought⟩,
              ⟨.provider, "error", .onProviderError⟩ ] } := rfl
    rw [hfirst, startListening_of_listening _ rfl]
    simp [settle, settleOne, Listener.store, h1, h2, h3, listenerCount]

/-- Witness of C2: the two redundant calls and `start(); start()` on concrete
states. -/
theorem redundant_calls_are_noops_witness :
    (startListening Listener.listening).listener = Listener.listening ∧
      (stopListening Listener.fresh).listener = Listener.fresh ∧
      listenerCount
        (settle quietSource
          (startListening (startListening Listener.fresh).listener).listener
          ).listener.contractListeners
        "NFTListed" = 1 :=
  ⟨((redundant_calls_are_noops quietSource Listener.listening).1 rfl).2.1,
    ((redundant_calls_are_noops quietSource Listener.fresh).2.1 rfl).2.1,
    ((redundant_calls_are_noops quietSource Listener.fresh).2.2
      rfl rfl rfl rfl rfl rfl rfl).2.2.2.2.2.1⟩

/-- C3 fails on the code.  `startListening()` does not await its
registrations, so it never throws, whatever the state.  On the fresh (Idle)
listener, with a source that refuses the `NFTListed` registration, it issues
all three registrations, prints its last line, and returns with `isListening`
true; the refusal arrives in a later turn of the event loop as a rejection
that no caller receives, and `isListening` is still true then. -/
theorem startListening_swallows_refused_registration :
    (∀ s : Listener, (startListening s).outcome = .returned ()) ∧
      Listener.fresh.isListening = false ∧
      refusingSource.onFault .contract "NFTListed" = some ⟨"could not connect"⟩ ∧
      (startListening Listener.fresh).ops =
        [ .on .contract "NFTListed" .onListed, .on .contract "NFTBought" .onBought,
          .on .provider "error" .onProviderError ] ∧
      (startListening Listener.fresh).console.getLast? =
        some (.log "✅ 事件监听器已启动，等待事件...") ∧
      (startListening Listener.fresh).listener.isListening = true ∧
      (settle refusingSource (startListening Listener.fresh).listener).rejections =
        [⟨"could not connect"⟩] ∧
      (settle refusingSource (startListening Listener.fresh).listener).listener.isListening
        = true ∧
      listenerCount
        (settle refusingSource (startListening Listener.fresh).listener).listener.contractListeners
        "NFTListed" = 0 :=
  ⟨fun s => (lifecycle_calls_return s).1, rfl, rfl, rfl, rfl, rfl, rfl, rfl, rfl⟩

/-! ## Lifecycle: after stop, and the error channel -/

/-- C9 fails on the code.  `start(); stop()` as consecutive statements on a
fresh listener: when `stopListening()` has returned, `isListening` is false
and both registries are empty, but the three registrations of `start()` are
still pending; once the source has accepted them the callbacks are registered,
with `isListening` false, and an `NFTListed` log pushed afterwards is
printed. -/
theorem stop_before_settle_leaves_callbacks :
    (runSteps [.start, .stop] Listener.fresh).isListening = false ∧
      (runSteps [.start, .stop] Listener.fresh).contractListeners = [] ∧
      (runSteps [.start, .stop] Listener.fresh).providerListeners = [] ∧
      (runSteps [.start, .stop] Listener.fresh).pending =
        [ ⟨.contract, "NFTListed", .onListed⟩, ⟨.contract, "NFTBought", .onBought⟩,
          ⟨.provider, "error", .onProviderError⟩ ] ∧
      (runSteps [.start, .stop, .settle quietSource] Listener.fresh).isListening = false ∧
      (runSteps [.start, .stop, .settle quietSource] Listener.fresh).contractListeners =
        [⟨"NFTListed", .onListed⟩, ⟨"NFTBought", .onBought⟩] ∧
      (runSteps [.start, .stop, .settle quietSource] Listener.fresh).providerListeners =
        [⟨"error", .onProviderError⟩] ∧
      (∀ foreign : Handler → Push → Listener → Delivery,
        (deliver foreign (runSteps [.start, .stop, .settle quietSource] Listener.fresh)
          (.listed ⟨7, "0xA1", 1500000000000000000, 12, "0x01"⟩ "t")).console =
          listedLines ⟨7, "0xA1", 1500000000000000000, 12, "0x01"⟩ "t") :=
  ⟨rfl, rfl, rfl, rfl, rfl, rfl, rfl, fun _ => rfl⟩

theorem dispatch_providerError (foreign : Handler → Push → Listener → Delivery)
    (e : JsError) (subs : List Subscription)
    (hown : ∀ sub ∈ subs, sub.event = "error" → sub.handler = .onProviderError) :
    ∀ d : Delivery, dispatch foreign (.providerError e) subs d =
      { listener := d.listener
        console := d.console ++
          List.replicate (listenerCount subs "error") (.error "❌ 提供者错误:" e)
        raised := d.raised } := by
  induction subs with
  | nil => intro d; simp [dispatch, listenerCount]
  | cons sub subs ih =>
    intro d
    have ih2 := ih (fun x hx => hown x (List.mem_cons_of_mem _ hx))
    by_cases hev : sub.event = "error"
    · have hh := hown sub (List.mem_cons_self _ _) hev
      have hcount : listenerCount (sub :: subs) "error" = listenerCount subs "error" + 1 := by
        simp [listenerCount, hev]
      simp only [dispatch, Push.event, hev, beq_self_eq_true, if_true, hh, runHandler, ih2,
        hcount, List.replicate_succ, List.append_nil, List.append_assoc, List.singleton_append]
    · have hcount : listenerCount (sub :: subs) "error" = listenerCount subs "error" := by
        simp [listenerCount, hev]
      have hne : (sub.event == "error") = false := by simpa using hev
      simp only [dispatch, Push.event, hne, Bool.false_eq_true, if_false, ih2, hcount]

/-- C10: for every listener with `isListening` true whose provider carries,
under `'error'`, only the error callback of `startListening` (any number of
copies of it, as the lifecycle calls leave it), and every error `e` arriving
on the provider's `'error'` event: each registered copy of the callback calls
`console.error` with `e` and does nothing else.  The flag, both registries and
the pending registrations are as before, no `console.log` is made, and nothing
is thrown. -/
theorem provider_error_is_advisory (foreign : Handler → Push → Listener → Delivery)
    (s : Listener) (e : JsError) (hl : s.isListening = true)
    (hown : ∀ sub ∈ s.providerListeners, sub.event = "error" →
      sub.handler = .onProviderError) :
    (deliver foreign s (.providerError e)).listener = s ∧
    (deliver foreign s (.providerError e)).listener.isListening = true ∧
    (deliver foreign s (.providerError e)).console =
      List.replicate (listenerCount s.providerListeners "error")
        (.error "❌ 提供者错误:" e) ∧
    (∀ c ∈ (deliver foreign s (.providerError e)).console, c.isSink = false) ∧
    (deliver foreign s (.providerError e)).raised = [] := by
  have hd : deliver foreign s (.providerError e) =
      { listener := s
        console := List.replicate (listenerCount s.providerListeners "error")
          (.error "❌ 提供者错误:" e)
        raised := [] } := by
    simp only [deliver, Push.emitter, Listener.registry]
    rw [dispatch_providerError foreign e s.providerListeners hown]
    simp
  rw [hd]
  refine ⟨rfl, hl, rfl, ?_, rfl⟩
  intro c hc
  rw [List.eq_of_mem_replicate hc]
  rfl

/-- Witness of C10: an error pushed after `start(); stop(); start()` and the
turn of the event loop that registers the callbacks; the provider carries two
copies of the error callback there. -/
theorem provider_error_is_advisory_witness :
    (deliver silentForeign
        (runSteps [.start, .stop, .start, .settle quietSource] Listener.fresh)
        (.providerError ⟨"socket closed"⟩)).listener =
        runSteps [.start, .stop, .start, .settle quietSource] Listener.fresh ∧
      (deliver silentForeign
        (runSteps [.start, .stop, .start, .settle quietSource] Listener.fresh)
        (.providerError ⟨"socket closed"⟩)).console =
        [ .error "❌ 提供者错误:" ⟨"socket closed"⟩,
          .error "❌ 提供者错误:" ⟨"socket closed"⟩ ] :=
  ⟨(provider_error_is_advisory silentForeign
      (runSteps [.start, .stop, .start, .settle quietSource] Listener.fresh)
      ⟨"socket closed"⟩ rfl
      (fun sub hsub _ => (runSteps_own _ _ fresh_own).1 sub hsub)).1,
    (provider_error_is_advisory silentForeign
      (runSteps [.start, .stop, .start, .settle quietSource] Listener.fresh)
      ⟨"socket closed"⟩ rfl
      (fun sub hsub _ => (runSteps_own _ _ fresh_own).1 sub hsub)).2.2.1⟩

/-! ## Historical events: failures -/

/-- C4, as stated, fails: when the `NFTListed` query fails on the range
(0, 100), `getHistoricalEvents` does not throw; its promise is fulfilled with
`undefined`. -/
theorem getHistoricalEvents_failure_not_raised :
    listedQueryDownSource.queryListed (.number 0) (.number 100) = .threw ⟨"node error"⟩ ∧
      listedQueryDownSource.queryBought (.number 0) (.number 100) =
        .returned (sampleBought.map .decoded) ∧
      (getHistoricalEvents listedQueryDownSource Listener.fresh (.number 0)
        (.number 100)).outcome = .returned .undefined ∧
      ¬ ∃ e, (getHistoricalEvents listedQueryDownSource Listener.fresh (.number 0)
        (.number 100)).outcome = .threw e := by
  refine ⟨rfl, rfl, rfl, ?_⟩
  rintro ⟨e, he⟩
  have h : (getHistoricalEvents listedQueryDownSource Listener.fresh (.number 0)
      (.number 100)).outcome = .returned .undefined := rfl
  rw [h] at he
  cases he

/-- C4, amended: for every block range, when the `NFTListed` query fails with
`e`, `getHistoricalEvents` catches the failure: it reports `e` with
`console.error`, never issues the `NFTBought` query, returns no events (its
promise is fulfilled with `undefined`, nothing is thrown to the caller), and
leaves the listener state as it was. -/
theorem getHistoricalEvents_listed_failure_caught (src : LogSource) (s : Listener)
    (fromBlock toBlock : BlockTag) (e : JsError)
    (h : src.queryListed fromBlock toBlock = .threw e) :
    (getHistoricalEvents src s fromBlock toBlock).outcome = .returned .undefined ∧
    (getHistoricalEvents src s fromBlock toBlock).console =
      [.log "📚 获取历史事件...", .error "❌ 获取历史事件失败:" e] ∧
    (getHistoricalEvents src s fromBlock toBlock).ops =
      [.queryFilter "NFTListed" fromBlock toBlock] ∧
    (getHistoricalEvents src s fromBlock toBlock).listener = s := by
  simp [getHistoricalEvents, historicalTry, h]

/-- Witness of C4, amended: the source whose `NFTListed` query is down, on the
range (0, 100). -/
theorem getHistoricalEvents_listed_failure_caught_witness :
    (getHistoricalEvents listedQueryDownSource Listener.fresh (.number 0)
        (.number 100)).outcome = .returned .undefined ∧
      (getHistoricalEvents listedQueryDownSource Listener.fresh (.number 0)
        (.number 100)).ops = [.queryFilter "NFTListed" (.number 0) (.number 100)] :=
  ⟨(getHistoricalEvents_listed_failure_caught listedQueryDownSource Listener.fresh
      (.number 0) (.number 100) ⟨"node error"⟩ rfl).1,
    (getHistoricalEvents_listed_failure_caught listedQueryDownSource Listener.fresh
      (.number 0) (.number 100) ⟨"node error"⟩ rfl).2.2.1⟩

/-- C5: `getHistoricalEvents` has no partial-success mode.  For every block
range, when the `NFTListed` query fails, or the `NFTBought` query fails after
the `NFTListed` query answered with any logs `L`, the console receives the
opening banner (printed before the queries) and the failure report, and
nothing else: no count line and no line of a record of either kind. -/
theorem getHistoricalEvents_no_partial_output (src : LogSource) (s : Listener)
    (fromBlock toBlock : BlockTag) (e : JsError)
    (h : src.queryListed fromBlock toBlock = .threw e ∨
      ∃ L, src.queryListed fromBlock toBlock = .returned L ∧
        src.queryBought fromBlock toBlock = .threw e) :
    (getHistoricalEvents src s fromBlock toBlock).console =
      [.log "📚 获取历史事件...", .error "❌ 获取历史事件失败:" e] ∧
    (∀ c ∈ (getHistoricalEvents src s fromBlock toBlock).console, c.isEventData = false) := by
  have hc : (getHistoricalEvents src s fromBlock toBlock).console =
      [.log "📚 获取历史事件...", .error "❌ 获取历史事件失败:" e] := by
    rcases h with h | ⟨L, hL, hB⟩
    · simp [getHistoricalEvents, historicalTry, h]
    · simp [getHistoricalEvents, historicalTry, hL, hB]
  refine ⟨hc, ?_⟩
  rw [hc]
  simp [Console.isEventData]

/-- Witness of C5: the `NFTBought` query fails after the `NFTListed` query
answered with two logs. -/
theorem getHistoricalEvents_no_partial_output_witness :
    (getHistoricalEvents boughtQueryDownSource Listener.fresh (.number 0)
        (.number 100)).console =
      [.log "📚 获取历史事件...", .error "❌ 获取历史事件失败:" ⟨"node error"⟩] :=
  (getHistoricalEvents_no_partial_output boughtQueryDownSource Listener.fresh (.number 0)
    (.number 100) ⟨"node error"⟩ (Or.inr ⟨sampleListed.map .decoded, rfl, rfl⟩)).1

/-! ## Amounts: lemmas -/

theorem digitValue_digitChar (d : Nat) (h : d < 10) :
    digitValue (Nat.digitChar d) = some d := by
  interval_cases d <;> rfl

theorem digitChar_ne_point (d : Nat) (h : d < 10) : (Nat.digitChar d != '.') = true := by
  interval_cases d <;> rfl

theorem digitsValueFrom_append (xs ys : List Char) :
    ∀ acc, digitsValueFrom acc (xs ++ ys) =
      (digitsValueFrom acc xs).bind (fun a => digitsValueFrom a ys) := by
  induction xs with
  | nil => intro acc; rfl
  | cons c cs ih =>
    intro acc
    simp only [List.cons_append, digitsValueFrom]
    cases digitValue c with
    | none => rfl
    | some d => exact ih _

theorem digitsValueFrom_singleton (acc d : Nat) (h : d < 10) :
    digitsValueFrom acc [Nat.digitChar d] = some (acc * 10 + d) := by
  simp only [digitsValueFrom, digitValue_digitChar d h]

/-- The digits `Nat.toDigitsCore` puts in front of `ds`, with enough fuel, are
decimal digits that denote `n`. -/
theorem toDigitsCore_spec (fuel : Nat) :
    ∀ n ds, n < fuel →
      ∃ l, Nat.toDigitsCore 10 fuel n ds = l ++ ds ∧ digitsValueFrom 0 l = some n ∧
        (∀ c ∈ l, (c != '.') = true) ∧ l ≠ [] := by
  induction fuel with
  | zero => intro n ds h; omega
  | succ f ih =>
    intro n ds h
    have hlt : n % 10 < 10 := Nat.mod_lt _ (by norm_num)
    simp only [Nat.toDigitsCore]
    by_cases h0 : n / 10 = 0
    · simp only [h0, if_true]
      refine ⟨[Nat.digitChar (n % 10)], rfl, ?_, ?_, by simp⟩
      · rw [digitsValueFrom_singleton 0 _ hlt]
        congr 1
        omega
      · intro c hc
        simp only [List.mem_singleton] at hc
        subst hc
        exact digitChar_ne_point _ hlt
    · simp only [h0, if_false]
      obtain ⟨l, hl, hv, hp, _⟩ := ih (n / 10) (Nat.digitChar (n % 10) :: ds) (by omega)
      refine ⟨l ++ [Nat.digitChar (n % 10)], by simp [hl], ?_, ?_, by simp⟩
      · rw [digitsValueFrom_append, hv]
        simp only [Option.bind]
        rw [digitsValueFrom_singleton _ _ hlt]
        congr 1
        omega
      · intro c hc
        rcases List.mem_append.mp hc with hc | hc
        · exact hp c hc
        · simp only [List.mem_singleton] at hc
          subst hc
          exact digitChar_ne_point _ hlt

theorem toString_data_spec (n : Nat) :
    digitsValue (toString n).data = some n ∧
      (∀ c ∈ (toString n).data, (c != '.') = true) ∧ (toString n).data ≠ [] := by
  obtain ⟨l, hl, hv, hp, hne⟩ := toDigitsCore_spec (n + 1) n [] (by omega)
  have hd : (toString n).data = l := by
    show Nat.toDigits 10 n = l
    simpa [Nat.toDigits] using hl
  rw [hd]
  exact ⟨hv, hp, hne⟩

/-- The decimal numeral of a natural number determines it. -/
theorem toString_nat_injective (a b : Nat) (h : toString a = toString b) : a = b := by
  have ha := (toString_data_spec a).1
  have hb := (toString_data_spec b).1
  rw [h, hb] at ha
  exact (Option.some.inj ha).symm

theorem fixedDigits_spec (width : Nat) :
    ∀ r, digitsValueFrom 0 (fixedDigits width r) = some (r % 10 ^ width) ∧
      (fixedDigits width r).length = width := by
  induction width with
  | zero => intro r; simp [fixedDigits, digitsValueFrom, Nat.mod_one]
  | succ w ih =>
    intro r
    obtain ⟨hv, hlen⟩ := ih (r / 10)
    refine ⟨?_, by simp [fixedDigits, hlen]⟩
    simp only [fixedDigits]
    rw [digitsValueFrom_append, hv]
    simp only [Option.bind]
    rw [digitsValueFrom_singleton _ _ (Nat.mod_lt _ (by norm_num))]
    congr 1
    rw [pow_succ, Nat.mul_comm (10 ^ w) 10, Nat.mod_mul]
    ring

theorem digitsValueFrom_zeros (k : Nat) :
    ∀ acc, digitsValueFrom acc (List.replicate k '0') = some (acc * 10 ^ k) := by
  induction k with
  | zero => intro acc; simp [digitsValueFrom]
  | succ k ih =>
    intro acc
    have h0 : digitValue '0' = some 0 := rfl
    simp only [List.replicate_succ, digitsValueFrom, h0, ih]
    congr 1
    ring

/-- A digit string is what `trimFraction` keeps of it, followed by zeros. -/
theorem trailing_zeros_split (ds : List Char) :
    ∃ k, ds = (ds.reverse.dropWhile (fun c => c == '0')).reverse ++ List.replicate k '0' := by
  refine ⟨(ds.reverse.takeWhile (fun c => c == '0')).length, ?_⟩
  have hz : (ds.reverse.takeWhile (fun c => c == '0')).reverse =
      List.replicate (ds.reverse.takeWhile (fun c => c == '0')).length '0' := by
    rw [List.eq_replicate_iff]
    refine ⟨by simp, ?_⟩
    intro b hb
    have hb2 := List.mem_takeWhile_imp (List.mem_reverse.mp hb)
    simpa using hb2
  have hsplit := List.takeWhile_append_dropWhile (fun c => c == '0') ds.reverse
  have hrev := congrArg List.reverse hsplit
  rw [List.reverse_append, List.reverse_reverse] at hrev
  rw [← hz]
  exact hrev.symm

/-- Trimming keeps the fraction a digit string denotes. -/
theorem trimFraction_spec (ds : List Char) (v : Nat) (h : digitsValueFrom 0 ds = some v) :
    ∃ f, digitsValueFrom 0 (trimFraction ds) = some f ∧ trimFraction ds ≠ [] ∧
      (f : ℚ) / (10 : ℚ) ^ (trimFraction ds).length = (v : ℚ) / (10 : ℚ) ^ ds.length := by
  obtain ⟨k, hk⟩ := trailing_zeros_split ds
  have h10 : ((10 : ℚ) ^ k) ≠ 0 := pow_ne_zero _ (by norm_num)
  cases ht : (ds.reverse.dropWhile (fun c => c == '0')).reverse with
  | nil =>
    have htrim : trimFraction ds = ['0'] := by simp only [trimFraction, ht]
    rw [ht, List.nil_append] at hk
    have hv : v = 0 := by
      rw [hk, digitsValueFrom_zeros] at h
      simpa using h.symm
    subst hv
    rw [htrim]
    exact ⟨0, rfl, by simp, by simp⟩
  | cons c cs =>
    have htrim : trimFraction ds = c :: cs := by simp only [trimFraction, ht]
    rw [ht] at hk
    have h2 := h
    rw [hk, digitsValueFrom_append] at h2
    cases ha : digitsValueFrom 0 (c :: cs) with
    | none => simp [ha] at h2
    | some a =>
      rw [ha] at h2
      simp only [Option.bind, digitsValueFrom_zeros, Option.some.injEq] at h2
      rw [htrim]
      refine ⟨a, ha, by simp, ?_⟩
      have hlen : ds.length = (c :: cs).length + k := by
        rw [hk]
        simp only [List.length_append, List.length_replicate]
      rw [hlen, ← h2, pow_add]
      push_cast
      rw [mul_div_mul_right _ _ h10]

/-- The numeral `formatEther` prints denotes `wei / 10^18` exactly. -/
theorem decimalValue_formatEther (wei : Nat) :
    decimalValue (formatEther wei) = some ((wei : ℚ) / (10 : ℚ) ^ 18) := by
  obtain ⟨hw, hpt, hne⟩ := toString_data_spec (wei / 10 ^ 18)
  obtain ⟨hfv, hflen⟩ := fixedDigits_spec 18 (wei % 10 ^ 18)
  obtain ⟨f, hf, hfne, hfrac⟩ := trimFraction_spec _ _ hfv
  have hdata : (formatEther wei).data =
      (toString (wei / 10 ^ 18)).data ++
        '.' :: trimFraction (fixedDigits 18 (wei % 10 ^ 18)) := by
    simp [formatEther]
  have htake : (formatEther wei).data.takeWhile (fun c => c != '.') =
      (toString (wei / 10 ^ 18)).data := by
    rw [hdata, List.takeWhile_append_of_pos hpt]
    simp
  have hdrop : (formatEther wei).data.dropWhile (fun c => c != '.') =
      '.' :: trimFraction (fixedDigits 18 (wei % 10 ^ 18)) := by
    rw [hdata, List.dropWhile_append_of_pos hpt]
    simp
  have hwe : (toString (wei / 10 ^ 18)).data.isEmpty = false := by
    cases hd : (toString (wei / 10 ^ 18)).data with
    | nil => exact absurd hd hne
    | cons _ _ => rfl
  have hfe : (trimFraction (fixedDigits 18 (wei % 10 ^ 18))).isEmpty = false := by
    cases hd : trimFraction (fixedDigits 18 (wei % 10 ^ 18)) with
    | nil => exact absurd hd hfne
    | cons _ _ => rfl
  unfold digitsValue at hw
  simp only [decimalValue, htake, hdrop, hwe, hfe, digitsValue, hw, hf, Bool.or_self,
    Bool.false_eq_true, if_false, Option.some.injEq]
  rw [hfrac, hflen, Nat.mod_mod_of_dvd _ (dvd_refl _)]
  have hsplit : (wei : ℚ) = ((wei / 10 ^ 18 : Nat) : ℚ) * (10 : ℚ) ^ 18 +
      ((wei % 10 ^ 18 : Nat) : ℚ) := by
    have := Nat.div_add_mod wei (10 ^ 18)
    have h2 : ((10 ^ 18 * (wei / 10 ^ 18) + wei % 10 ^ 18 : Nat) : ℚ) = (wei : ℚ) := by
      rw [this]
    rw [← h2]
    push_cast
    ring
  have h10 : ((10 : ℚ) ^ 18) ≠ 0 := pow_ne_zero _ (by norm_num)
  rw [hsplit]
  field_simp

/-- The numeral `formatEther` prints determines the amount. -/
theorem formatEther_injective (a b : Nat) (h : formatEther a = formatEther b) : a = b := by
  have ha := decimalValue_formatEther a
  rw [h, decimalValue_formatEther b] at ha
  have h10 : ((10 : ℚ) ^ 18) ≠ 0 := pow_ne_zero _ (by norm_num)
  have hq : (b : ℚ) = (a : ℚ) := (div_left_inj' h10).mp (Option.some.inj ha)
  exact_mod_cast hq.symm

theorem string_append_left_cancel (p a b : String) (h : p ++ a = p ++ b) : a = b := by
  have hd := congrArg String.data h
  simp only [String.data_append] at hd
  exact String.ext (List.append_cancel_left hd)

theorem string_append_right_cancel (a b q : String) (h : a ++ q = b ++ q) : a = b := by
  have hd := congrArg String.data h
  simp only [String.data_append] at hd
  exact String.ext (List.append_cancel_right hd)

/-! ## Records: lemmas -/

/-- A `forEach` whose callback returns on every element prints the outputs of
the callback, one after the other, and throws nothing. -/
theorem forEachFrom_returned {α β : Type} (f : β → Nat → Completion (List Console))
    (g : α → β) (r : α → Nat → List Console) (hf : ∀ x i, f (g x) i = .returned (r x i))
    (xs : List α) :
    ∀ i, forEachFrom f (xs.map g) i =
      { console := ((xs.enumFrom i).map (fun p => r p.2 p.1)).flatten, thrown := none } := by
  induction xs with
  | nil => intro i; rfl
  | cons x xs ih =>
    intro i
    simp only [List.map_cons, forEachFrom, hf, ih, List.enumFrom_cons, List.flatten_cons]

theorem records_length {α : Type} (r : α → Nat → List Console) (w : Nat)
    (hw : ∀ x i, (r x i).length = w) (xs : List α) :
    ∀ i, ((xs.enumFrom i).map (fun p => r p.2 p.1)).flatten.length = w * xs.length := by
  induction xs with
  | nil => intro i; simp
  | cons x xs ih =>
    intro i
    simp only [List.enumFrom_cons, List.map_cons, List.flatten_cons, List.length_append, hw,
      ih, List.length_cons]
    ring

/-- With records of `w` lines each, the `k`-th record is the callback's output
for the `k`-th element and the index `k`. -/
theorem records_at {α : Type} (r : α → Nat → List Console) (w : Nat)
    (hw : ∀ x i, (r x i).length = w) (xs : List α) :
    ∀ (i k : Nat) (hk : k < xs.length) (rest : List Console),
      ((((xs.enumFrom i).map (fun p => r p.2 p.1)).flatten ++ rest).drop (w * k)).take w =
        r (xs.get ⟨k, hk⟩) (i + k) := by
  induction xs with
  | nil => intro i k hk; simp at hk
  | cons x xs ih =>
    intro i k hk rest
    cases k with
    | zero =>
      simp only [List.enumFrom_cons, List.map_cons, List.flatten_cons, Nat.mul_zero,
        List.drop_zero, List.append_assoc, Nat.add_zero]
      rw [List.take_append_of_le_length (by rw [hw])]
      rw [List.take_of_length_le (by rw [hw])]
      rfl
    | succ k =>
      have hk2 : k < xs.length := by simpa using hk
      have hdrop : w * (k + 1) = (r x i).length + w * k := by
        rw [hw]
        ring
      have hidx : i + (k + 1) = i + 1 + k := by omega
      simp only [List.enumFrom_cons, List.map_cons, List.flatten_cons, List.append_assoc]
      rw [hdrop, List.drop_append, ih (i + 1) k hk2 rest, hidx]
      rfl

theorem drop_after_prefix (front rest : List Console) (n m : Nat)
    (h : n = front.length + m) : (front ++ rest).drop n = rest.drop m := by
  subst h
  exact List.drop_append _

theorem listedRecord_length (event : ListedLog) (index : Nat) :
    (listedRecord event index).length = 7 := rfl

theorem boughtRecord_length (event : BoughtLog) (index : Nat) :
    (boughtRecord event index).length = 8 := rfl

/-- A historical `NFTListed` record determines the log and its number. -/
theorem listedRecord_injective (a b : ListedLog) (i j : Nat)
    (h : listedRecord a i = listedRecord b j) : a = b ∧ i = j := by
  simp only [listedRecord, List.cons.injEq, Console.log.injEq, and_true] at h
  obtain ⟨h0, h1, h2, h3, h4, h5⟩ := h
  have hi := toString_nat_injective _ _
    (string_append_left_cancel _ _ _ (string_append_right_cancel _ _ _ h0))
  have e1 := toString_nat_injective _ _ (string_append_left_cancel _ _ _ h1)
  have e2 := string_append_left_cancel _ _ _ h2
  have e3 := formatEther_injective _ _
    (string_append_left_cancel _ _ _ (string_append_right_cancel _ _ _ h3))
  have e4 := toString_nat_injective _ _ (string_append_left_cancel _ _ _ h4)
  have e5 := string_append_left_cancel _ _ _ h5
  refine ⟨?_, by omega⟩
  cases a
  cases b
  simp only [ListedLog.mk.injEq]
  exact ⟨e1, e2, e3, e4, e5⟩

/-- A historical `NFTBought` record determines the log and its number. -/
theorem boughtRecord_injective (a b : BoughtLog) (i j : Nat)
    (h : boughtRecord a i = boughtRecord b j) : a = b ∧ i = j := by
  simp only [boughtRecord, List.cons.injEq, Console.log.injEq, and_true] at h
  obtain ⟨h0, h1, h2, h3, h4, h5, h6⟩ := h
  have hi := toString_nat_injective _ _
    (string_append_left_cancel _ _ _ (string_append_right_cancel _ _ _ h0))
  have e1 := toString_nat_injective _ _ (string_append_left_cancel _ _ _ h1)
  have e2 := string_append_left_cancel _ _ _ h2
  have e3 := string_append_left_cancel _ _ _ h3
  have e4 := formatEther_injective _ _
    (string_append_left_cancel _ _ _ (string_append_right_cancel _ _ _ h4))
  have e5 := toString_nat_injective _ _ (string_append_left_cancel _ _ _ h5)
  have e6 := string_append_left_cancel _ _ _ h6
  refine ⟨?_, by omega⟩
  cases a
  cases b
  simp only [BoughtLog.mk.injEq]
  exact ⟨e1, e2, e3, e4, e5, e6⟩

/-- A live `NFTListed` record determines the log and the clock reading. -/
theorem listedLines_injective (a b : ListedLog) (ta tb : String)
    (h : listedLines a ta = listedLines b tb) : a = b ∧ ta = tb := by
  simp only [listedLines, List.cons.injEq, Console.log.injEq, and_true, true_and] at h
  obtain ⟨h1, h2, h3, h4, h5, h6⟩ := h
  have e1 := toString_nat_injective _ _ (string_append_left_cancel _ _ _ h1)
  have e2 := string_append_left_cancel _ _ _ h2
  have e3 := formatEther_injective _ _
    (string_append_left_cancel _ _ _ (string_append_right_cancel _ _ _ h3))
  have e4 := string_append_left_cancel _ _ _ h4
  have e5 := toString_nat_injective _ _ (string_append_left_cancel _ _ _ h5)
  have e6 := string_append_left_cancel _ _ _ h6
  refine ⟨?_, e6⟩
  cases a
  cases b
  simp only [ListedLog.mk.injEq]
  exact ⟨e1, e2, e3, e5, e4⟩

/-- The promise of `getHistoricalEvents` is always fulfilled with `undefined`. -/
theorem getHistoricalEvents_fulfilled (src : LogSource) (s : Listener)
    (fromBlock toBlock : BlockTag) :
    (getHistoricalEvents src s fromBlock toBlock).outcome = .returned .undefined := by
  unfold getHistoricalEvents
  dsimp only
  cases (historicalTry src fromBlock toBlock).thrown <;> rfl

/-- The console of `getHistoricalEvents` when both queries answer with decoded
logs only. -/
theorem getHistoricalEvents_console_of_decoded (src : LogSource) (s : Listener)
    (fromBlock toBlock : BlockTag) (L : List ListedLog) (B : List BoughtLog)
    (hL : src.queryListed fromBlock toBlock = .returned (L.map .decoded))
    (hB : src.queryBought fromBlock toBlock = .returned (B.map .decoded)) :
    (getHistoricalEvents src s fromBlock toBlock).console =
      [ .log "📚 获取历史事件...",
        .log ("找到 " ++ toString L.length ++ " 个上架事件"),
        .log ("找到 " ++ toString B.length ++ " 个购买事件") ]
      ++ ((L.enum.map (fun p => listedRecord p.2 p.1)).flatten
        ++ (B.enum.map (fun p => boughtRecord p.2 p.1)).flatten) := by
  have hl := forEachFrom_returned listedCallback Fetched.decoded listedRecord
    (fun _ _ => rfl) L 0
  have hb := forEachFrom_returned boughtCallback Fetched.decoded boughtRecord
    (fun _ _ => rfl) B 0
  simp [getHistoricalEvents, historicalTry, hL, hB, forEach, hl, hb, List.enum]

/-! ## Historical events: the batch -/

/-- C6, as stated, fails: on the range (0, 100), with two `NFTListed` and three
`NFTBought` logs in the source, all decoded, `getHistoricalEvents` hands its
caller `undefined`, not two sequences of two and three events.  And when a log
of the answer does not decode, not even the console gets a record per log:
with a second `NFTListed` log without `args` it holds the banner, the two
counts, the record of the first log and the failure report. -/
theorem getHistoricalEvents_returns_no_events :
    sampleSource.queryListed (.number 0) (.number 100) =
        .returned (sampleListed.map .decoded) ∧
      sampleSource.queryBought (.number 0) (.number 100) =
        .returned (sampleBought.map .decoded) ∧
      sampleListed.length = 2 ∧ sampleBought.length = 3 ∧
      (getHistoricalEvents sampleSource Listener.fresh (.number 0) (.number 100)).outcome =
        .returned .undefined ∧
      (¬ ∃ listed bought,
        (getHistoricalEvents sampleSource Listener.fresh (.number 0) (.number 100)).outcome =
          .returned (.events listed bought) ∧ listed.length = 2 ∧ bought.length = 3) ∧
      (getHistoricalEvents undecodedSource Listener.fresh (.number 0)
        (.number 100)).console.length = 11 := by
  refine ⟨rfl, rfl, rfl, rfl, rfl, ?_, rfl⟩
  rintro ⟨listed, bought, h, _⟩
  have hu : (getHistoricalEvents sampleSource Listener.fresh (.number 0)
      (.number 100)).outcome = .returned .undefined := rfl
  rw [hu] at h
  cases h

/-- C6, amended: for every block range and every source that answers the
`NFTListed` query with `L` and the `NFTBought` query with `B`, all logs
decoded, `getHistoricalEvents` returns no value to its caller (its promise is
fulfilled with `undefined`) and prints the two sequences instead: after the
banner, the counts `|L|` and `|B|`, then one record per element of `L`, in the
order of `L`, then one record per element of `B`, in the order of `B`; there
are exactly `|L|` and `|B|` records. -/
theorem getHistoricalEvents_prints_both_sequences (src : LogSource) (s : Listener)
    (fromBlock toBlock : BlockTag) (L : List ListedLog) (B : List BoughtLog)
    (hL : src.queryListed fromBlock toBlock = .returned (L.map .decoded))
    (hB : src.queryBought fromBlock toBlock = .returned (B.map .decoded)) :
    (getHistoricalEvents src s fromBlock toBlock).outcome = .returned .undefined ∧
    (getHistoricalEvents src s fromBlock toBlock).console =
      [ .log "📚 获取历史事件...",
        .log ("找到 " ++ toString L.length ++ " 个上架事件"),
        .log ("找到 " ++ toString B.length ++ " 个购买事件") ]
      ++ (L.enum.map (fun p => listedRecord p.2 p.1)).flatten
      ++ (B.enum.map (fun p => boughtRecord p.2 p.1)).flatten ∧
    (L.enum.map (fun p => listedRecord p.2 p.1)).length = L.length ∧
    (B.enum.map (fun p => boughtRecord p.2 p.1)).length = B.length ∧
    (getHistoricalEvents src s fromBlock toBlock).ops =
      [.queryFilter "NFTListed" fromBlock toBlock,
        .queryFilter "NFTBought" fromBlock toBlock] := by
  refine ⟨?_, ?_, by simp, by simp, ?_⟩
  · exact getHistoricalEvents_fulfilled src s fromBlock toBlock
  · rw [getHistoricalEvents_console_of_decoded src s fromBlock toBlock L B hL hB]
    simp
  · have hl := forEachFrom_returned listedCallback Fetched.decoded listedRecord
      (fun _ _ => rfl) L 0
    have hb := forEachFrom_returned boughtCallback Fetched.decoded boughtRecord
      (fun _ _ => rfl) B 0
    simp [getHistoricalEvents, historicalTry, hL, hB, forEach, hl, hb]

/-- Witness of C6, amended: two `NFTListed` and three `NFTBought` logs on the
range (0, 100). -/
theorem getHistoricalEvents_prints_both_sequences_witness :
    (getHistoricalEvents sampleSource Listener.fresh (.number 0) (.number 100)).outcome =
        .returned .undefined ∧
      (sampleListed.enum.map (fun p => listedRecord p.2 p.1)).length = 2 ∧
      (sampleBought.enum.map (fun p => boughtRecord p.2 p.1)).length = 3 :=
  ⟨(getHistoricalEvents_prints_both_sequences sampleSource Listener.fresh (.number 0)
      (.number 100) sampleListed sampleBought rfl rfl).1,
    (getHistoricalEvents_prints_both_sequences sampleSource Listener.fresh (.number 0)
      (.number 100) sampleListed sampleBought rfl rfl).2.2.1,
    (getHistoricalEvents_prints_both_sequences sampleSource Listener.fresh (.number 0)
      (.number 100) sampleListed sampleBought rfl rfl).2.2.2.1⟩

/-- C7, as stated, fails: on the range (0, 100) the source answers the
`NFTListed` query with two logs, the second of which does not decode, and the
`NFTBought` query with three.  The console gets the banner, the counts 2 and
3, the record of the first `NFTListed` log and the failure report: eleven
calls, with no record for the second `NFTListed` log and none for the three
`NFTBought` logs. -/
theorem getHistoricalEvents_stops_at_undecoded_log :
    undecodedSource.queryListed (.number 0) (.number 100) =
        .returned
          [.decoded ⟨7, "0xA1", 1500000000000000000, 12, "0x01"⟩, .undecoded 40 "0x02"] ∧
      undecodedSource.queryBought (.number 0) (.number 100) =
        .returned (sampleBought.map .decoded) ∧
      (getHistoricalEvents undecodedSource Listener.fresh (.number 0) (.number 100)).console =
        [ .log "📚 获取历史事件...", .log "找到 2 个上架事件", .log "找到 3 个购买事件" ]
        ++ listedRecord ⟨7, "0xA1", 1500000000000000000, 12, "0x01"⟩ 0
        ++ [.error "❌ 获取历史事件失败:" argsTypeError] ∧
      ¬ (getHistoricalEvents undecodedSource Listener.fresh (.number 0)
        (.number 100)).console.length = 3 + 7 * 2 + 8 * 3 := by
  refine ⟨rfl, rfl, rfl, ?_⟩
  have h : (getHistoricalEvents undecodedSource Listener.fresh (.number 0)
      (.number 100)).console.length = 11 := rfl
  rw [h]
  decide

/-- C7, amended: for every block range and every source that answers the
`NFTListed` query with `L` and the `NFTBought` query with `B`, all logs
decoded, the console receives one ordered batch: the banner and the two counts
`|L|` and `|B|`, then the records of `L` (seven lines each), then the records
of `B` (eight lines each), and nothing else.  The `k`-th record of each kind
is the one of the `k`-th log, headed by the number `k + 1`; a record
determines its log (token id, seller, buyer, price, block number, transaction
hash) and its number, so every log is delivered once, with its fields as they
are. -/
theorem getHistoricalEvents_ordered_batch (src : LogSource) (s : Listener)
    (fromBlock toBlock : BlockTag) (L : List ListedLog) (B : List BoughtLog)
    (hL : src.queryListed fromBlock toBlock = .returned (L.map .decoded))
    (hB : src.queryBought fromBlock toBlock = .returned (B.map .decoded)) :
    (getHistoricalEvents src s fromBlock toBlock).console.take 3 =
      [ .log "📚 获取历史事件...",
        .log ("找到 " ++ toString L.length ++ " 个上架事件"),
        .log ("找到 " ++ toString B.length ++ " 个购买事件") ] ∧
    (getHistoricalEvents src s fromBlock toBlock).console.length =
      3 + 7 * L.length + 8 * B.length ∧
    (∀ (k : Nat) (hk : k < L.length),
      (((getHistoricalEvents src s fromBlock toBlock).console.drop (3 + 7 * k)).take 7 =
        listedRecord (L.get ⟨k, hk⟩) k) ∧
      (listedRecord (L.get ⟨k, hk⟩) k).head? =
        some (.log ("📋 历史上架事件 #" ++ toString (k + 1) ++ ":"))) ∧
    (∀ (k : Nat) (hk : k < B.length),
      (((getHistoricalEvents src s fromBlock toBlock).console.drop
        (3 + 7 * L.length + 8 * k)).take 8 = boughtRecord (B.get ⟨k, hk⟩) k) ∧
      (boughtRecord (B.get ⟨k, hk⟩) k).head? =
        some (.log ("💰 历史购买事件 #" ++ toString (k + 1) ++ ":"))) ∧
    (∀ (a b : ListedLog) (i j : Nat), listedRecord a i = listedRecord b j → a = b ∧ i = j) ∧
    (∀ (a b : BoughtLog) (i j : Nat), boughtRecord a i = boughtRecord b j → a = b ∧ i = j) := by
  have hc := getHistoricalEvents_console_of_decoded src s fromBlock toBlock L B hL hB
  have hlenL := records_length listedRecord 7 listedRecord_length L 0
  have hlenB := records_length boughtRecord 8 boughtRecord_length B 0
  refine ⟨?_, ?_, ?_, ?_, listedRecord_injective, boughtRecord_injective⟩
  · rw [hc]
    rfl
  · rw [hc]
    simp only [List.length_append, List.length_cons, List.length_nil, List.enum, hlenL, hlenB]
    omega
  · intro k hk
    refine ⟨?_, rfl⟩
    rw [hc, drop_after_prefix
      [ Console.log "📚 获取历史事件...",
        Console.log ("找到 " ++ toString L.length ++ " 个上架事件"),
        Console.log ("找到 " ++ toString B.length ++ " 个购买事件") ]
      _ (3 + 7 * k) (7 * k) rfl]
    have h := records_at listedRecord 7 listedRecord_length L 0 k hk
      ((B.enum.map (fun p => boughtRecord p.2 p.1)).flatten)
    simpa [List.enum] using h
  · intro k hk
    refine ⟨?_, rfl⟩
    rw [hc, ← List.append_assoc,
      drop_after_prefix
        ([ Console.log "📚 获取历史事件...",
          Console.log ("找到 " ++ toString L.length ++ " 个上架事件"),
          Console.log ("找到 " ++ toString B.length ++ " 个购买事件") ] ++
            (L.enum.map (fun p => listedRecord p.2 p.1)).flatten)
        _ (3 + 7 * L.length + 8 * k) (8 * k)
        (by simp only [List.length_append, List.length_cons, List.length_nil, List.enum,
          hlenL])]
    have h := records_at boughtRecord 8 boughtRecord_length B 0 k hk []
    simpa [List.enum] using h

/-- Witness of C7, amended: two `NFTListed` and three `NFTBought` logs on the
range (0, 100); the second `NFTBought` record sits after the banner, the
counts, two records of seven lines and one of eight. -/
theorem getHistoricalEvents_ordered_batch_witness :
    (getHistoricalEvents sampleSource Listener.fresh (.number 0) (.number 100)).console.length =
        3 + 7 * 2 + 8 * 3 ∧
      ((getHistoricalEvents sampleSource Listener.fresh (.number 0)
        (.number 100)).console.drop (3 + 7 * 2 + 8 * 1)).take 8 =
        boughtRecord ⟨9, "0xD4", "0xB2", 1, 41, "0x04"⟩ 1 :=
  ⟨(getHistoricalEvents_ordered_batch sampleSource Listener.fresh (.number 0) (.number 100)
      sampleListed sampleBought rfl rfl).2.1,
    ((getHistoricalEvents_ordered_batch sampleSource Listener.fresh (.number 0) (.number 100)
      sampleListed sampleBought rfl rfl).2.2.2.1 1 (by decide)).1⟩

/-! ## Live deliveries: one callback, and two -/

theorem deliver_listening_listed (foreign : Handler → Push → Listener → Delivery)
    (log : ListedLog) (now : String) :
    deliver foreign Listener.listening (.listed log now) =
      { listener := Listener.listening
        console := listedLines log now
        raised := [] } := by
  rfl

/-- In the state Listening (one callback of each kind, nothing pending), `N`
pushed `NFTListed` logs print `N` records, in the order of the pushes. -/
theorem deliverAll_listening_listed (foreign : Handler → Push → Listener → Delivery)
    (pushes : List (ListedLog × String)) :
    deliverAll foreign Listener.listening (pushes.map (fun p => Push.listed p.1 p.2)) =
      { listener := Listener.listening
        console := (pushes.map (fun p => listedLines p.1 p.2)).flatten
        raised := [] } := by
  induction pushes with
  | nil => rfl
  | cons p ps ih =>
    simp only [List.map_cons, deliverAll, deliver_listening_listed, ih, List.flatten_cons,
      List.append_nil]

/-- C8 fails on the code.  After `start(); stop(); start()` as consecutive
statements on a fresh listener and the turn of the event loop in which the
registrations are accepted, `isListening` is true and two `NFTListed`
callbacks are registered: one pushed `NFTListed` log puts two records on the
console (sixteen calls), not one.  And between the return of a single
`start()` and that turn of the event loop, `isListening` is true and a pushed
log puts nothing on the console. -/
theorem restart_prints_each_log_twice :
    (runSteps [.start, .stop, .start, .settle quietSource] Listener.fresh).isListening = true ∧
      (∀ foreign : Handler → Push → Listener → Delivery,
        (deliverAll foreign
          (runSteps [.start, .stop, .start, .settle quietSource] Listener.fresh)
          [.listed ⟨7, "0xA1", 1500000000000000000, 12, "0x01"⟩ "t"]).console =
          listedLines ⟨7, "0xA1", 1500000000000000000, 12, "0x01"⟩ "t" ++
            listedLines ⟨7, "0xA1", 1500000000000000000, 12, "0x01"⟩ "t") ∧
      (listedLines ⟨7, "0xA1", 1500000000000000000, 12, "0x01"⟩ "t" ++
        listedLines ⟨7, "0xA1", 1500000000000000000, 12, "0x01"⟩ "t").length = 16 ∧
      (startListening Listener.fresh).listener.isListening = true ∧
      (∀ foreign : Handler → Push → Listener → Delivery,
        (deliverAll foreign (startListening Listener.fresh).listener
          [.listed ⟨7, "0xA1", 1500000000000000000, 12, "0x01"⟩ "t"]).console = []) :=
  ⟨rfl, fun _ => rfl, rfl, rfl, fun _ => rfl⟩

end NFTMarket
